import Mathlib

/-!
Shallow embedding of `src/src/App.js` (prly.fn), a parlay range-bet pricing
and risk engine.  JavaScript floating-point arithmetic is modelled by exact
real arithmetic; `Number.prototype.toFixed(2)` is modelled by `toFixed2`
(rounding to the nearest multiple of 1/100).  The React component state
(`legs`, `selectedAsset`, `timeframe`, `lowerBound`, `upperBound`,
`betAmount`, `history`, `error`, `livePrice`) becomes the `State` structure,
and the event handlers `addLeg`, `removeLeg`, `placeBet` become functions
`State → State`.  `Date.now()` / `new Date().toISOString()` are modelled by a
clock field `now` of the state.
-/

namespace Prly

/-- Keys of the `ASSETS` object literal (App.js lines 14-20). -/
inductive AssetKey
  | BTC | ETH | SOL | LINK | DOGE
deriving DecidableEq

/-- Value type of the `ASSETS` registry entries. -/
structure AssetInfo where
  name : String
  symbol : String
  volatility : ℝ

/-- The `ASSETS` registry (App.js lines 14-20). -/
noncomputable def ASSETS : AssetKey → AssetInfo
  | .BTC => ⟨"Bitcoin", "bitcoin", 0.02⟩
  | .ETH => ⟨"Ethereum", "ethereum", 0.025⟩
  | .SOL => ⟨"Solana", "solana", 0.035⟩
  | .LINK => ⟨"Chainlink", "chainlink", 0.04⟩
  | .DOGE => ⟨"Dogecoin", "dogecoin", 0.06⟩

/-- Keys of the `TIMEFRAMES` object literal (App.js lines 22-31). -/
inductive Timeframe
  | h1 | h4 | h24 | h48 | d3 | d7 | d14 | d30
deriving DecidableEq

/-- The `TIMEFRAMES` registry: timeframe name to hour count. -/
def TIMEFRAMES : Timeframe → ℕ
  | .h1 => 1
  | .h4 => 4
  | .h24 => 24
  | .h48 => 48
  | .d3 => 72
  | .d7 => 168
  | .d14 => 336
  | .d30 => 720

/-- The `RANGE_LIMITS` object (App.js lines 33-36). -/
structure RangeLimitsT where
  narrow : ℝ
  wide : ℝ

noncomputable def RANGE_LIMITS : RangeLimitsT := ⟨0.01, 0.30⟩

noncomputable def TREASURY_SIZE : ℝ := 20000

noncomputable def MAX_PAYOUT_PERCENTAGE : ℝ := 0.10

/-- Embeds `calculateTimeScaledVolatility` (App.js lines 41-48): base volatility
times `sqrt(timeframeHours / 24)` times a short-horizon multiplier.  The
`price` argument is accepted and ignored, as in the source. -/
noncomputable def calculateTimeScaledVolatility (assetKey : AssetKey)
    (timeframeHours : ℕ) (price : ℝ) : ℝ :=
  let vol := (ASSETS assetKey).volatility
  let multiplier : ℝ :=
    if timeframeHours ≤ 1 then 1.3
    else if timeframeHours ≤ 4 then 1.2
    else if timeframeHours ≤ 24 then 1.1
    else 1.0
  vol * Real.sqrt ((timeframeHours : ℝ) / 24) * multiplier

/-- The logistic-tanh normal CDF approximation used inside
`calculateWinProbability` (App.js line 54):
`cdf(z) = 0.5 * (1 + tanh(sqrt(π/8) * z))`. -/
noncomputable def normalCDF (z : ℝ) : ℝ :=
  0.5 * (1 + Real.tanh (Real.sqrt (Real.pi / 8) * z))

/-- Embeds `calculateWinProbability` (App.js lines 50-57). -/
noncomputable def calculateWinProbability (assetKey : AssetKey)
    (lowerBound upperBound : ℝ) (timeframeHours : ℕ) (price : ℝ) : ℝ :=
  let stdDev := price * calculateTimeScaledVolatility assetKey timeframeHours price
  let z1 := (lowerBound - price) / stdDev
  let z2 := (upperBound - price) / stdDev
  min (normalCDF z2 - normalCDF z1) 0.25

/-- Embeds `calculatePayoutOdds` (App.js lines 59-61).  The JavaScript default
parameter `houseEdge = 0.07` is passed explicitly at every call site. -/
noncomputable def calculatePayoutOdds (probability houseEdge : ℝ) : ℝ :=
  (1 / probability) * (1 - houseEdge)

/-- Embeds `isRangeValid` (App.js lines 63-66). -/
noncomputable def isRangeValid (lowerBound upperBound price : ℝ) : Prop :=
  let width := (upperBound - lowerBound) / price
  width ≥ RANGE_LIMITS.narrow ∧ width ≤ RANGE_LIMITS.wide

noncomputable instance (l u p : ℝ) : Decidable (isRangeValid l u p) := by
  unfold isRangeValid
  exact instDecidableAnd

/-- A parlay leg, as built by `addLeg` (App.js line 108). -/
structure Leg where
  asset : AssetKey
  timeframe : Timeframe
  lowerBound : ℝ
  upperBound : ℝ
  probability : ℝ
  payoutOdds : ℝ

/-- A placed ticket, as built by `placeBet` (App.js lines 149-156).
`combinedPayout` stores the numeric value of the string produced by
`getCombinedPayout()` (which applies `.toFixed(2)`). -/
structure Ticket where
  id : ℕ
  legs : List Leg
  betAmount : ℝ
  timestamp : ℕ
  result : String
  combinedPayout : ℝ

/-- The React component state of `ParlayBuilder` (App.js lines 69-77),
plus a clock `now` modelling `Date.now()`. -/
structure State where
  legs : List Leg
  selectedAsset : AssetKey
  timeframe : Timeframe
  lowerBound : ℝ
  upperBound : ℝ
  betAmount : ℝ
  history : List Ticket
  error : String
  livePrice : ℝ
  now : ℕ

/-- Model of JavaScript `Number.prototype.toFixed(2)` on the values arising
here: round to the nearest multiple of 1/100. -/
noncomputable def toFixed2 (x : ℝ) : ℝ := (round (x * 100) : ℝ) / 100

/-- Embeds `getCombinedProb` (App.js lines 115-121). -/
noncomputable def getCombinedProb (legs : List Leg) : ℝ :=
  if legs.length = 0 then 0
  else
    let base := legs.foldl (fun acc leg => acc * leg.probability) 1
    let avgCorrelationFactor : ℝ := 0.85
    let bonus : ℝ :=
      if legs.length = 2 then 1.3 else if legs.length = 3 then 1.5 else 1.0
    base ^ ((1 : ℝ) / (legs.length : ℝ)) * avgCorrelationFactor * bonus

/-- Embeds `getCombinedPayout` (App.js lines 123-126), as a numeric value
(the source formats it with `.toFixed(2)`, modelled by `toFixed2`). -/
noncomputable def getCombinedPayout (legs : List Leg) : ℝ :=
  let combinedProb := getCombinedProb legs
  if combinedProb > 0 then
    toFixed2 (calculatePayoutOdds (min combinedProb 0.25) 0.07)
  else 0

def rangeErrorMsg : String :=
  "Range width must be between 1% and 30% of the current asset price."

def emptyParlayMsg : String :=
  "You must add at least one leg to your parlay."

def probCapMsg : String :=
  "Combined probability exceeds 25% maximum win cap."

def exposureMsg : String :=
  "Potential payout exceeds maximum treasury exposure."

/-- The leg object literal appended by `addLeg` (App.js lines 99-108). -/
noncomputable def mkLeg (s : State) : Leg :=
  let timeframeHours := TIMEFRAMES s.timeframe
  let probability := calculateWinProbability s.selectedAsset s.lowerBound
    s.upperBound timeframeHours s.livePrice
  { asset := s.selectedAsset
    timeframe := s.timeframe
    lowerBound := s.lowerBound
    upperBound := s.upperBound
    probability := probability
    payoutOdds := calculatePayoutOdds probability 0.07 }

/-- Embeds `addLeg` (App.js lines 93-109): reject with `rangeErrorMsg` when the
range is invalid, otherwise clear the error and append the new leg. -/
noncomputable def addLeg (s : State) : State :=
  if ¬ isRangeValid s.lowerBound s.upperBound s.livePrice then
    { s with error := rangeErrorMsg }
  else
    { s with error := "", legs := s.legs ++ [mkLeg s] }

/-- The list operation of `removeLeg` (App.js line 112):
`legs.filter((_, i) => i !== index)`. -/
def removeLegList (index : ℕ) (legs : List Leg) : List Leg :=
  (legs.enum.filter (fun p => p.1 ≠ index)).map Prod.snd

/-- Embeds `removeLeg` (App.js lines 111-113). -/
def removeLeg (index : ℕ) (s : State) : State :=
  { s with legs := removeLegList index s.legs }

/-- The ticket object literal built by `placeBet` on acceptance
(App.js lines 149-156). -/
noncomputable def mkTicket (s : State) : Ticket :=
  { id := s.now
    legs := s.legs
    betAmount := s.betAmount
    timestamp := s.now
    result := "pending"
    combinedPayout := getCombinedPayout s.legs }

/-- Embeds `placeBet` (App.js lines 128-159): empty-parlay gate, probability-cap
gate, exposure gate, then accept (prepend ticket, clear legs). -/
noncomputable def placeBet (s : State) : State :=
  if s.legs.length = 0 then
    { s with error := emptyParlayMsg }
  else
    let finalProb := getCombinedProb s.legs
    if finalProb > 0.25 then
      { s with error := probCapMsg }
    else
      let payoutOdds := calculatePayoutOdds finalProb 0.07
      let potentialPayout := s.betAmount * payoutOdds
      if potentialPayout > TREASURY_SIZE * MAX_PAYOUT_PERCENTAGE then
        { s with error := exposureMsg }
      else
        { s with
            error := ""
            history := mkTicket s :: s.history
            legs := [] }

/-- Initial component state (App.js lines 69-77: `useState` initialisers). -/
def initState : State :=
  { legs := []
    selectedAsset := .BTC
    timeframe := .h24
    lowerBound := 0
    upperBound := 0
    betAmount := 100
    history := []
    error := ""
    livePrice := 0
    now := 0 }

/-- One user/system event on the component state: form-input changes, a
price-feed update, a clock tick, or one of the three handlers. -/
inductive Step : State → State → Prop
  | input (s : State) (a : AssetKey) (tf : Timeframe) (l u b : ℝ) :
      Step s { s with selectedAsset := a, timeframe := tf,
                      lowerBound := l, upperBound := u, betAmount := b }
  | price (s : State) (p : ℝ) : Step s { s with livePrice := p }
  | tick (s : State) (n : ℕ) : Step s { s with now := n }
  | add (s : State) : Step s (addLeg s)
  | remove (s : State) (i : ℕ) : Step s (removeLeg i s)
  | bet (s : State) : Step s (placeBet s)

/-- States reachable from the initial state by event steps. -/
inductive Reach : State → Prop
  | init : Reach initState
  | next {s t : State} : Reach s → Step s t → Reach t

/-- A concrete in-session leg (BTC, 24-hour, range 49500-50500) carrying
probability 0.2, used as a test vector. -/
noncomputable def cLeg : Leg :=
  { asset := .BTC
    timeframe := .h24
    lowerBound := 49500
    upperBound := 50500
    probability := 0.2
    payoutOdds := 4.65 }

/-- A concrete component state holding one `cLeg` and a stake of 100. -/
noncomputable def cState : State :=
  { legs := [cLeg]
    selectedAsset := .BTC
    timeframe := .h24
    lowerBound := 49500
    upperBound := 50500
    betAmount := 100
    history := []
    error := ""
    livePrice := 50000
    now := 1700000000 }

/-- The state `cState` with a zero stake. -/
noncomputable def zState : State := { cState with betAmount := 0 }

/-- A state whose pending range inputs have width zero (invalid). -/
noncomputable def badState : State :=
  { cState with lowerBound := 50000, upperBound := 50000 }

/-- A state with no live price (price feed unavailable or failed). -/
noncomputable def noPriceState : State := { cState with livePrice := 0 }

/-- A leg priced exactly at the per-leg probability cap 0.25. -/
noncomputable def capLeg : Leg :=
  { asset := .BTC
    timeframe := .h24
    lowerBound := 49500
    upperBound := 50500
    probability := 0.25
    payoutOdds := 3.72 }

/-- A state whose parlay holds two cap-level legs (combined probability
0.27625, above the 0.25 cap). -/
noncomputable def capState : State := { cState with legs := [capLeg, capLeg] }

/-! ## Helper lemmas -/

lemma volatility_pos (a : AssetKey) : 0 < (ASSETS a).volatility := by
  cases a <;> norm_num [ASSETS]

lemma timeframes_pos (tf : Timeframe) : 0 < TIMEFRAMES tf := by
  cases tf <;> norm_num [TIMEFRAMES]

lemma timeScaledVolatility_pos (a : AssetKey) (h : ℕ) (price : ℝ)
    (hh : 0 < h) : 0 < calculateTimeScaledVolatility a h price := by
  simp only [calculateTimeScaledVolatility]
  have h1 : 0 < (ASSETS a).volatility := volatility_pos a
  have h2 : 0 < Real.sqrt ((h : ℝ) / 24) :=
    Real.sqrt_pos.mpr (div_pos (by exact_mod_cast hh) (by norm_num))
  have h3 : (0:ℝ) <
      (if h ≤ 1 then (1.3:ℝ) else if h ≤ 4 then 1.2 else if h ≤ 24 then 1.1 else 1.0) := by
    split_ifs <;> norm_num
  exact mul_pos (mul_pos h1 h2) h3

lemma tanh_lt_tanh_of_lt {a b : ℝ} (hab : a < b) : Real.tanh a < Real.tanh b := by
  rw [Real.tanh_eq_sinh_div_cosh, Real.tanh_eq_sinh_div_cosh,
    div_lt_div_iff₀ (Real.cosh_pos a) (Real.cosh_pos b)]
  have h := Real.sinh_pos_iff.mpr (sub_pos.mpr hab)
  rw [Real.sinh_sub] at h
  nlinarith [h]

lemma normalCDF_lt_normalCDF {a b : ℝ} (hab : a < b) :
    normalCDF a < normalCDF b := by
  simp only [normalCDF]
  have hc : 0 < Real.sqrt (Real.pi / 8) :=
    Real.sqrt_pos.mpr (div_pos Real.pi_pos (by norm_num))
  have := tanh_lt_tanh_of_lt (mul_lt_mul_of_pos_left hab hc)
  linarith

lemma snd_mem_of_mem_enumFrom {α : Type} :
    ∀ {l : List α} {n : ℕ} {p : ℕ × α}, p ∈ l.enumFrom n → p.2 ∈ l := by
  intro l
  induction l with
  | nil => intro n p h; simp [List.enumFrom] at h
  | cons x xs ih =>
    intro n p h
    simp only [List.enumFrom] at h
    rcases List.mem_cons.mp h with h1 | h2
    · simp [h1]
    · exact List.mem_cons_of_mem _ (ih h2)

lemma mem_of_mem_removeLegList {i : ℕ} {legs : List Leg} {x : Leg}
    (h : x ∈ removeLegList i legs) : x ∈ legs := by
  unfold removeLegList at h
  obtain ⟨p, hp, rfl⟩ := List.mem_map.mp h
  have hp' := (List.mem_filter.mp hp).1
  exact snd_mem_of_mem_enumFrom (by simpa [List.enum] using hp')

lemma getCombinedProb_nil : getCombinedProb [] = 0 := by
  simp [getCombinedProb]

lemma getCombinedProb_singleton (l : Leg) :
    getCombinedProb [l] = l.probability * 0.85 := by
  simp [getCombinedProb, Real.rpow_one]
  norm_num

lemma getCombinedProb_pair (p : ℝ) (hp : 0 ≤ p) (l1 l2 : Leg)
    (h1 : l1.probability = p) (h2 : l2.probability = p) :
    getCombinedProb [l1, l2] = p * 0.85 * 1.3 := by
  simp only [getCombinedProb, List.length_cons, List.length_nil, List.foldl,
    h1, h2]
  norm_num
  have hpp : p * p = p ^ ((2:ℕ) : ℝ) := by
    rw [Real.rpow_natCast]; ring
  rw [hpp, ← Real.rpow_mul hp]
  norm_num [Real.rpow_one]

lemma addLeg_of_invalid {s : State}
    (h : ¬ isRangeValid s.lowerBound s.upperBound s.livePrice) :
    addLeg s = { s with error := rangeErrorMsg } := by
  simp [addLeg, h]

lemma addLeg_of_valid {s : State}
    (h : isRangeValid s.lowerBound s.upperBound s.livePrice) :
    addLeg s = { s with error := "", legs := s.legs ++ [mkLeg s] } := by
  simp [addLeg, h]

lemma placeBet_of_empty {s : State} (h : s.legs.length = 0) :
    placeBet s = { s with error := emptyParlayMsg } := by
  simp [placeBet, h]

lemma placeBet_of_probCap {s : State} (h0 : ¬ s.legs.length = 0)
    (h : 0.25 < getCombinedProb s.legs) :
    placeBet s = { s with error := probCapMsg } := by
  simp [placeBet, h0, h]

lemma placeBet_of_exposure {s : State} (h0 : ¬ s.legs.length = 0)
    (h1 : ¬ 0.25 < getCombinedProb s.legs)
    (h2 : TREASURY_SIZE * MAX_PAYOUT_PERCENTAGE <
      s.betAmount * calculatePayoutOdds (getCombinedProb s.legs) 0.07) :
    placeBet s = { s with error := exposureMsg } := by
  simp [placeBet, h0, h1, h2]

lemma placeBet_of_accept {s : State} (h0 : ¬ s.legs.length = 0)
    (h1 : ¬ 0.25 < getCombinedProb s.legs)
    (h2 : ¬ TREASURY_SIZE * MAX_PAYOUT_PERCENTAGE <
      s.betAmount * calculatePayoutOdds (getCombinedProb s.legs) 0.07) :
    placeBet s =
      { s with error := "", history := mkTicket s :: s.history, legs := [] } := by
  simp [placeBet, h0, h1, h2]

lemma cLeg_combined : getCombinedProb [cLeg] = 0.17 := by
  rw [getCombinedProb_singleton]
  norm_num [cLeg]

/-! ## Claim theorems -/

/-- C2: for every asset, timeframe, and price > 0, and every lower < upper
whose range width (upper − lower)/price lies in [0.01, 0.30],
`calculateWinProbability` returns a value strictly greater than 0 and at
most 0.25. -/
theorem C2_winProbability_pos_le_cap (a : AssetKey) (tf : Timeframe)
    (lower upper price : ℝ) (hprice : 0 < price) (hlt : lower < upper)
    (hw1 : 0.01 ≤ (upper - lower) / price)
    (hw2 : (upper - lower) / price ≤ 0.30) :
    0 < calculateWinProbability a lower upper (TIMEFRAMES tf) price ∧
      calculateWinProbability a lower upper (TIMEFRAMES tf) price ≤ 0.25 := by
  have hsd : 0 < price * calculateTimeScaledVolatility a (TIMEFRAMES tf) price :=
    mul_pos hprice
      (timeScaledVolatility_pos a (TIMEFRAMES tf) price (timeframes_pos tf))
  have hz : (lower - price) /
        (price * calculateTimeScaledVolatility a (TIMEFRAMES tf) price) <
      (upper - price) /
        (price * calculateTimeScaledVolatility a (TIMEFRAMES tf) price) := by
    rw [div_eq_mul_inv, div_eq_mul_inv]
    exact mul_lt_mul_of_pos_right (by linarith) (inv_pos.mpr hsd)
  have hcdf := normalCDF_lt_normalCDF hz
  constructor
  · simp only [calculateWinProbability]
    exact lt_min (by linarith) (by norm_num)
  · simp only [calculateWinProbability]
    exact min_le_right _ _

/-- Witness for C2: BTC, 24-hour timeframe, price 50000, bounds
49500-50500 (width 0.02). -/
theorem C2_witness :
    0 < calculateWinProbability .BTC 49500 50500 (TIMEFRAMES .h24) 50000 ∧
      calculateWinProbability .BTC 49500 50500 (TIMEFRAMES .h24) 50000 ≤ 0.25 :=
  C2_winProbability_pos_le_cap .BTC .h24 49500 50500 50000 (by norm_num)
    (by norm_num) (by norm_num) (by norm_num)

/-- C9: `calculatePayoutOdds(p, e) = (1/p) × (1 − e)` is strictly
decreasing in the probability p for a fixed house edge e, and strictly
decreasing in e for a fixed p, on p ∈ (0, 1] and e ∈ [0, 1). -/
theorem C9_payoutOdds_strictly_decreasing :
    (∀ p₁ p₂ e : ℝ, 0 < p₁ → p₁ < p₂ → p₂ ≤ 1 → 0 ≤ e → e < 1 →
      calculatePayoutOdds p₂ e < calculatePayoutOdds p₁ e) ∧
    (∀ p e₁ e₂ : ℝ, 0 < p → p ≤ 1 → 0 ≤ e₁ → e₁ < e₂ → e₂ < 1 →
      calculatePayoutOdds p e₂ < calculatePayoutOdds p e₁) := by
  constructor
  · intro p₁ p₂ e hp₁ hlt hp₂ he₀ he₁
    simp only [calculatePayoutOdds]
    have h1 : (1:ℝ)/p₂ < 1/p₁ := one_div_lt_one_div_of_lt hp₁ hlt
    exact mul_lt_mul_of_pos_right h1 (by linarith)
  · intro p e₁ e₂ hp hp1 he₀ hlt he₁
    simp only [calculatePayoutOdds]
    have h1 : (0:ℝ) < 1/p := by positivity
    exact mul_lt_mul_of_pos_left (by linarith) h1

/-- Witness for C9 at (p₁, p₂) = (0.17, 0.25) with e = 0.07, and at
(e₁, e₂) = (0, 0.07) with p = 0.25. -/
theorem C9_witness :
    calculatePayoutOdds 0.25 0.07 < calculatePayoutOdds 0.17 0.07 ∧
      calculatePayoutOdds 0.25 0.07 < calculatePayoutOdds 0.25 0 :=
  ⟨C9_payoutOdds_strictly_decreasing.1 0.17 0.25 0.07 (by norm_num)
      (by norm_num) (by norm_num) (by norm_num) (by norm_num),
    C9_payoutOdds_strictly_decreasing.2 0.25 0 0.07 (by norm_num)
      (by norm_num) (by norm_num) (by norm_num) (by norm_num)⟩

/-- C1: `placeBet` applies its gates in order: an empty parlay is rejected
with the empty-parlay reason; otherwise a combined probability above 0.25
is rejected with the probability-cap reason regardless of stake; otherwise
a potential payout `stake × payoutOdds(combinedProbability)` above
`TREASURY_SIZE × MAX_PAYOUT_PERCENTAGE` is rejected with the exposure-cap
reason; otherwise a Ticket snapshotting the legs, stake, timestamp and
combined odds with result state "pending" is prepended to the history and
the parlay is cleared.  The last two conjuncts carry the (always true for
parlays built by `addLeg`) hypothesis that the combined probability is
positive, which keeps the total real division of the model aligned with
JavaScript, where `1/0` is `Infinity`. -/
theorem C1_placeBet_gate_order (s : State) :
    (s.legs = [] → placeBet s = { s with error := emptyParlayMsg }) ∧
    (s.legs ≠ [] → 0.25 < getCombinedProb s.legs →
      placeBet s = { s with error := probCapMsg }) ∧
    (s.legs ≠ [] → 0 < getCombinedProb s.legs →
      getCombinedProb s.legs ≤ 0.25 →
      TREASURY_SIZE * MAX_PAYOUT_PERCENTAGE <
        s.betAmount * calculatePayoutOdds (getCombinedProb s.legs) 0.07 →
      placeBet s = { s with error := exposureMsg }) ∧
    (s.legs ≠ [] → 0 < getCombinedProb s.legs →
      getCombinedProb s.legs ≤ 0.25 →
      s.betAmount * calculatePayoutOdds (getCombinedProb s.legs) 0.07 ≤
        TREASURY_SIZE * MAX_PAYOUT_PERCENTAGE →
      placeBet s = { s with
        error := "",
        history := { id := s.now, legs := s.legs, betAmount := s.betAmount,
                     timestamp := s.now, result := "pending",
                     combinedPayout := getCombinedPayout s.legs } :: s.history,
        legs := [] }) := by
  refine ⟨?_, ?_, ?_, ?_⟩
  · intro h
    exact placeBet_of_empty (by simp [h])
  · intro h0 h
    exact placeBet_of_probCap (by simpa [List.length_eq_zero] using h0) h
  · intro h0 _ hle hexp
    exact placeBet_of_exposure (by simpa [List.length_eq_zero] using h0)
      (not_lt.mpr hle) hexp
  · intro h0 _ hle hexp
    have h := placeBet_of_accept (by simpa [List.length_eq_zero] using h0)
      (not_lt.mpr hle) (not_lt.mpr hexp)
    simpa [mkTicket] using h

/-- Witness for C1: on `cState` (one leg of probability 0.2, stake 100,
combined probability 0.17, potential payout 9300/17 ≤ 2000) all gates pass
and the acceptance branch fires. -/
theorem C1_witness :
    placeBet cState = { cState with
      error := "",
      history := { id := cState.now, legs := cState.legs,
                   betAmount := cState.betAmount, timestamp := cState.now,
                   result := "pending",
                   combinedPayout := getCombinedPayout cState.legs } :: cState.history,
      legs := [] } := by
  have hc : getCombinedProb cState.legs = 0.17 := by
    rw [show cState.legs = [cLeg] from rfl, cLeg_combined]
  apply (C1_placeBet_gate_order cState).2.2.2
  · simp [cState]
  · rw [hc]; norm_num
  · rw [hc]; norm_num
  · rw [hc]
    norm_num [calculatePayoutOdds, TREASURY_SIZE, MAX_PAYOUT_PERCENTAGE, cState]

/-- C5: atomicity of rejection: when `addLeg` rejects (invalid range) or
`placeBet` rejects (empty parlay, probability cap exceeded, or exposure
cap exceeded), the parlay's leg sequence and the ticket history are left
unchanged. -/
theorem C5_rejection_atomic :
    (∀ s : State, ¬ isRangeValid s.lowerBound s.upperBound s.livePrice →
      (addLeg s).legs = s.legs ∧ (addLeg s).history = s.history) ∧
    (∀ s : State,
      (s.legs = [] ∨ 0.25 < getCombinedProb s.legs ∨
        TREASURY_SIZE * MAX_PAYOUT_PERCENTAGE <
          s.betAmount * calculatePayoutOdds (getCombinedProb s.legs) 0.07) →
      (placeBet s).legs = s.legs ∧ (placeBet s).history = s.history) := by
  constructor
  · intro s h
    rw [addLeg_of_invalid h]
    exact ⟨rfl, rfl⟩
  · intro s h
    by_cases h0 : s.legs.length = 0
    · rw [placeBet_of_empty h0]; exact ⟨rfl, rfl⟩
    · by_cases h1 : 0.25 < getCombinedProb s.legs
      · rw [placeBet_of_probCap h0 h1]; exact ⟨rfl, rfl⟩
      · rcases h with he | hp | hx
        · exact absurd (by simp [he]) h0
        · exact absurd hp h1
        · rw [placeBet_of_exposure h0 h1 hx]; exact ⟨rfl, rfl⟩

/-- Witness for C5: an invalid-range `addLeg` on `badState` (width 0) and
an empty-parlay `placeBet` on `initState` both leave legs and history
unchanged. -/
theorem C5_witness :
    ((addLeg badState).legs = badState.legs ∧
      (addLeg badState).history = badState.history) ∧
    ((placeBet initState).legs = initState.legs ∧
      (placeBet initState).history = initState.history) :=
  ⟨C5_rejection_atomic.1 badState
      (by simp only [badState, cState, isRangeValid, RANGE_LIMITS]; norm_num),
    C5_rejection_atomic.2 initState (Or.inl rfl)⟩

/-- C7: with the live price 0 (price feed unavailable or failed) the range
validator rejects every pair of bounds, so `addLeg` rejects with the range
error and never reaches the probability engine: the state is unchanged
except for the error text, and no leg is built. -/
theorem C7_zero_price_refuses_leg :
    (∀ lower upper : ℝ, ¬ isRangeValid lower upper 0) ∧
    (∀ s : State, s.livePrice = 0 →
      addLeg s = { s with error := rangeErrorMsg }) := by
  have key : ∀ lower upper : ℝ, ¬ isRangeValid lower upper 0 := by
    intro l u
    simp only [isRangeValid, RANGE_LIMITS, div_zero]
    norm_num
  refine ⟨key, ?_⟩
  intro s hp
  apply addLeg_of_invalid
  rw [hp]
  exact key _ _

/-- Witness for C7: `addLeg` on `noPriceState` (live price 0) rejects and
only sets the error message. -/
theorem C7_witness :
    addLeg noPriceState = { noPriceState with error := rangeErrorMsg } :=
  C7_zero_price_refuses_leg.2 noPriceState rfl

lemma payout_of_017 : calculatePayoutOdds 0.17 0.07 = 93 / 17 := by
  simp only [calculatePayoutOdds]
  norm_num

lemma toFixed2_93_17 : toFixed2 ((93:ℝ) / 17) = 5.47 := by
  unfold toFixed2
  have hfl : round ((93:ℝ) / 17 * 100) = 547 := by
    rw [round_eq, show ((93:ℝ) / 17 * 100 + 1 / 2) = 18617 / 34 by norm_num]
    apply Int.floor_eq_iff.mpr
    constructor <;> norm_num
  rw [hfl]
  norm_num

lemma cLeg_payout : getCombinedPayout [cLeg] = 5.47 := by
  simp only [getCombinedPayout, cLeg_combined]
  rw [if_pos (by norm_num)]
  rw [show min (0.17:ℝ) 0.25 = 0.17 by norm_num [min_def], payout_of_017,
    toFixed2_93_17]

/-- C3: `getCombinedProb` of an empty leg sequence is 0; for a non-empty
sequence of n legs it equals `(Π probabilityᵢ)^(1/n) × 0.85 × bonus` with
bonus 1.3 for exactly 2 legs, 1.5 for exactly 3 legs and 1.0 otherwise;
the value is not itself capped at 0.25 (two cap-level legs combine to more
than 0.25), while the combined payout odds are computed from the capped
value `min(combinedProbability, 0.25)`. -/
theorem C3_combinedProb_formula :
    getCombinedProb [] = 0 ∧
    (∀ legs : List Leg, legs ≠ [] →
      getCombinedProb legs =
        ((legs.map (fun leg => leg.probability)).prod) ^
            ((1 : ℝ) / (legs.length : ℝ)) * 0.85 *
          (if legs.length = 2 then 1.3
           else if legs.length = 3 then 1.5 else 1.0)) ∧
    0.25 < getCombinedProb [capLeg, capLeg] ∧
    (∀ legs : List Leg, 0 < getCombinedProb legs →
      getCombinedPayout legs =
        toFixed2 (calculatePayoutOdds (min (getCombinedProb legs) 0.25) 0.07)) := by
  refine ⟨getCombinedProb_nil, ?_, ?_, ?_⟩
  · intro legs hne
    have h0 : ¬ legs.length = 0 := by
      simpa [List.length_eq_zero] using hne
    simp only [getCombinedProb]
    rw [if_neg h0]
    simp [List.prod_eq_foldl, List.foldl_map]
  · rw [getCombinedProb_pair 0.25 (by norm_num) capLeg capLeg rfl rfl]
    norm_num
  · intro legs h
    simp [getCombinedPayout, h]

/-- Witness for C3: the combined payout odds of the one-leg parlay
`[cLeg]` (combined probability 0.17 > 0) are the rounded
`payoutOdds(min(0.17, 0.25))`. -/
theorem C3_witness :
    getCombinedPayout [cLeg] =
      toFixed2 (calculatePayoutOdds (min (getCombinedProb [cLeg]) 0.25) 0.07) :=
  C3_combinedProb_formula.2.2.2 [cLeg] (by rw [cLeg_combined]; norm_num)

/-- Counterexample for C4: on `cState` the accepted ticket stores
`toFixed2 (payoutOdds 0.17) = 5.47`, while the independently recomputed
`payoutOdds(min(combinedProbability(ticket.legs), 0.25)) = 93/17 =
5.4705...`, so the stored odds differ from the exact recomputation. -/
theorem C4_counterexample :
    (placeBet cState).history = [mkTicket cState] ∧
    (mkTicket cState).legs = cState.legs ∧
    (mkTicket cState).combinedPayout ≠
      calculatePayoutOdds (min (getCombinedProb (mkTicket cState).legs) 0.25)
        0.07 := by
  have hc : getCombinedProb cState.legs = 0.17 := by
    rw [show cState.legs = [cLeg] from rfl, cLeg_combined]
  have hlen : ¬ cState.legs.length = 0 := by simp [cState]
  have h1 : ¬ 0.25 < getCombinedProb cState.legs := by rw [hc]; norm_num
  have h2 : ¬ TREASURY_SIZE * MAX_PAYOUT_PERCENTAGE <
      cState.betAmount * calculatePayoutOdds (getCombinedProb cState.legs) 0.07 := by
    rw [hc, payout_of_017]
    norm_num [TREASURY_SIZE, MAX_PAYOUT_PERCENTAGE, cState]
  refine ⟨?_, rfl, ?_⟩
  · rw [placeBet_of_accept hlen h1 h2]
    exact rfl
  · show getCombinedPayout cState.legs ≠
      calculatePayoutOdds (min (getCombinedProb cState.legs) 0.25) 0.07
    rw [show cState.legs = [cLeg] from rfl, cLeg_payout, cLeg_combined]
    rw [show min (0.17:ℝ) 0.25 = 0.17 by norm_num [min_def], payout_of_017]
    norm_num

/-- C4 (amended): the combined odds value stored in a Ticket created by an
accepted submission equals the 2-decimal rounding (JavaScript
`.toFixed(2)`) of `payoutOdds(min(combinedProbability(ticket.legs), 0.25))`
recomputed from the ticket's legs; without the rounding the equality
fails (see the counterexample). -/
theorem C4_roundtrip_with_toFixed (s : State)
    (h0 : s.legs ≠ []) (hpos : 0 < getCombinedProb s.legs)
    (hle : getCombinedProb s.legs ≤ 0.25)
    (hexp : s.betAmount * calculatePayoutOdds (getCombinedProb s.legs) 0.07 ≤
      TREASURY_SIZE * MAX_PAYOUT_PERCENTAGE) :
    (placeBet s).history = mkTicket s :: s.history ∧
    (mkTicket s).combinedPayout =
      toFixed2 (calculatePayoutOdds
        (min (getCombinedProb (mkTicket s).legs) 0.25) 0.07) := by
  constructor
  · rw [placeBet_of_accept (by simpa [List.length_eq_zero] using h0)
      (not_lt.mpr hle) (not_lt.mpr hexp)]
  · have hml : (mkTicket s).legs = s.legs := rfl
    rw [hml]
    show getCombinedPayout s.legs = _
    simp [getCombinedPayout, hpos]

/-- Witness for C4 (amended claim) at `cState`. -/
theorem C4_witness :
    (placeBet cState).history = mkTicket cState :: cState.history ∧
    (mkTicket cState).combinedPayout =
      toFixed2 (calculatePayoutOdds
        (min (getCombinedProb (mkTicket cState).legs) 0.25) 0.07) := by
  have hc : getCombinedProb cState.legs = 0.17 := by
    rw [show cState.legs = [cLeg] from rfl, cLeg_combined]
  apply C4_roundtrip_with_toFixed cState
  · simp [cState]
  · rw [hc]; norm_num
  · rw [hc]; norm_num
  · rw [hc, payout_of_017]
    norm_num [TREASURY_SIZE, MAX_PAYOUT_PERCENTAGE, cState]

/-- Counterexample for C6: on `zState` (stake 0, one leg of probability
0.2, combined probability 0.17) every gate of `placeBet` passes, so a
Ticket with the non-positive stake 0 is created. -/
theorem C6_counterexample :
    (placeBet zState).history = [mkTicket zState] ∧
    (mkTicket zState).betAmount = 0 ∧
    ¬ 0 < (mkTicket zState).betAmount := by
  have hc : getCombinedProb zState.legs = 0.17 := by
    rw [show zState.legs = [cLeg] from rfl, cLeg_combined]
  have hlen : ¬ zState.legs.length = 0 := by simp [zState, cState]
  have h1 : ¬ 0.25 < getCombinedProb zState.legs := by rw [hc]; norm_num
  have h2 : ¬ TREASURY_SIZE * MAX_PAYOUT_PERCENTAGE <
      zState.betAmount * calculatePayoutOdds (getCombinedProb zState.legs) 0.07 := by
    rw [hc, payout_of_017]
    norm_num [TREASURY_SIZE, MAX_PAYOUT_PERCENTAGE, zState, cState]
  refine ⟨?_, rfl, ?_⟩
  · rw [placeBet_of_accept hlen h1 h2]
    exact rfl
  · show ¬ (0:ℝ) < 0
    norm_num

/-- C6 (amended): `placeBet` does not validate stake positivity: whenever
the parlay gates pass with a positive combined probability, any
non-positive stake also passes the exposure gate (its potential payout is
≤ 0), and a Ticket recording that stake is created. -/
theorem C6_nonpositive_stake_accepted (s : State)
    (hpos : 0 < getCombinedProb s.legs)
    (hle : getCombinedProb s.legs ≤ 0.25) (hb : s.betAmount ≤ 0) :
    (placeBet s).history = mkTicket s :: s.history ∧
    (mkTicket s).betAmount = s.betAmount := by
  have h0 : ¬ s.legs.length = 0 := by
    intro h
    rw [List.length_eq_zero] at h
    rw [h, getCombinedProb_nil] at hpos
    exact lt_irrefl 0 hpos
  have hodds : 0 < calculatePayoutOdds (getCombinedProb s.legs) 0.07 := by
    simp only [calculatePayoutOdds]
    have h1 : 0 < 1 / getCombinedProb s.legs := by positivity
    nlinarith
  have hmul : s.betAmount * calculatePayoutOdds (getCombinedProb s.legs) 0.07 ≤ 0 := by
    nlinarith
  have hcap : (0:ℝ) < TREASURY_SIZE * MAX_PAYOUT_PERCENTAGE := by
    norm_num [TREASURY_SIZE, MAX_PAYOUT_PERCENTAGE]
  rw [placeBet_of_accept h0 (not_lt.mpr hle) (not_lt.mpr (by linarith))]
  exact ⟨rfl, rfl⟩

/-- Witness for C6 (amended claim) at `zState` (stake 0). -/
theorem C6_witness :
    (placeBet zState).history = mkTicket zState :: zState.history ∧
    (mkTicket zState).betAmount = zState.betAmount := by
  have hc : getCombinedProb zState.legs = 0.17 := by
    rw [show zState.legs = [cLeg] from rfl, cLeg_combined]
  apply C6_nonpositive_stake_accepted zState
  · rw [hc]; norm_num
  · rw [hc]; norm_num
  · show (0:ℝ) ≤ 0
    norm_num

/-- C8: `isRangeValid` holds exactly when
0.01 ≤ (upper − lower)/price ≤ 0.30; `addLeg` appends the newly built leg
exactly when this holds for the pending bounds at the live price, and
leaves the legs unchanged otherwise; consequently in every reachable state
each held leg was validated at its creation price: at some price its range
width satisfied the narrow/wide bounds and its probability was computed by
the probability engine at that price. -/
theorem C8_range_invariant :
    (∀ l u p : ℝ, isRangeValid l u p ↔
      (0.01 ≤ (u - l) / p ∧ (u - l) / p ≤ 0.30)) ∧
    (∀ s : State, isRangeValid s.lowerBound s.upperBound s.livePrice →
      (addLeg s).legs = s.legs ++ [mkLeg s]) ∧
    (∀ s : State, ¬ isRangeValid s.lowerBound s.upperBound s.livePrice →
      (addLeg s).legs = s.legs) ∧
    (∀ s : State, Reach s → ∀ leg ∈ s.legs, ∃ price : ℝ,
      isRangeValid leg.lowerBound leg.upperBound price ∧
      leg.probability = calculateWinProbability leg.asset leg.lowerBound
        leg.upperBound (TIMEFRAMES leg.timeframe) price) := by
  refine ⟨?_, ?_, ?_, ?_⟩
  · intro l u p
    exact Iff.rfl
  · intro s h
    rw [addLeg_of_valid h]
  · intro s h
    rw [addLeg_of_invalid h]
  · intro s hs
    induction hs with
    | init =>
      intro leg hleg
      simp [initState] at hleg
    | @next s t hR hS ih =>
      cases hS with
      | input a tf l u b => exact ih
      | price p => exact ih
      | tick n => exact ih
      | add =>
        intro leg hleg
        by_cases hv : isRangeValid s.lowerBound s.upperBound s.livePrice
        · rw [show (addLeg s).legs = s.legs ++ [mkLeg s] from
            by rw [addLeg_of_valid hv]] at hleg
          rcases List.mem_append.mp hleg with hmem | hnew
          · exact ih leg hmem
          · have : leg = mkLeg s := by simpa using hnew
            subst this
            exact ⟨s.livePrice, hv, rfl⟩
        · rw [show (addLeg s).legs = s.legs from
            by rw [addLeg_of_invalid hv]] at hleg
          exact ih leg hleg
      | remove i =>
        intro leg hleg
        exact ih leg (mem_of_mem_removeLegList hleg)
      | bet =>
        intro leg hleg
        by_cases h0 : s.legs.length = 0
        · rw [show (placeBet s).legs = s.legs from
            by rw [placeBet_of_empty h0]] at hleg
          exact ih leg hleg
        · by_cases h1 : 0.25 < getCombinedProb s.legs
          · rw [show (placeBet s).legs = s.legs from
              by rw [placeBet_of_probCap h0 h1]] at hleg
            exact ih leg hleg
          · by_cases h2 : TREASURY_SIZE * MAX_PAYOUT_PERCENTAGE <
                s.betAmount * calculatePayoutOdds (getCombinedProb s.legs) 0.07
            · rw [show (placeBet s).legs = s.legs from
                by rw [placeBet_of_exposure h0 h1 h2]] at hleg
              exact ih leg hleg
            · rw [show (placeBet s).legs = [] from
                by rw [placeBet_of_accept h0 h1 h2]] at hleg
              simp at hleg

/-- Witness for C8: the range 49500-50500 at price 50000 (width 0.02) is
valid and `addLeg` on `cState` appends the built leg. -/
theorem C8_witness :
    isRangeValid 49500 50500 50000 ∧
    (addLeg cState).legs = cState.legs ++ [mkLeg cState] := by
  have hv : isRangeValid 49500 50500 50000 :=
    (C8_range_invariant.1 49500 50500 50000).mpr (by norm_num)
  exact ⟨hv, C8_range_invariant.2.1 cState hv⟩

/-- C10: two legs of equal probability p ∈ (0, 0.25] combine to
0.85 × 1.3 × p = 1.105 × p, strictly more than p; in particular two legs
at the per-leg cap 0.25 combine to 0.27625 > 0.25 although each leg obeys
the per-leg cap, and every parlay whose combined probability exceeds 0.25
is rejected at submission by the probability-cap gate of `placeBet`. -/
theorem C10_pair_bonus_exceeds_cap :
    (∀ p : ℝ, 0 < p → p ≤ 0.25 → ∀ l1 l2 : Leg,
      l1.probability = p → l2.probability = p →
      getCombinedProb [l1, l2] = 1.105 * p ∧ p < getCombinedProb [l1, l2]) ∧
    (capLeg.probability ≤ 0.25 ∧ getCombinedProb [capLeg, capLeg] = 0.27625 ∧
      0.25 < getCombinedProb [capLeg, capLeg]) ∧
    (∀ s : State, 0.25 < getCombinedProb s.legs →
      placeBet s = { s with error := probCapMsg }) := by
  have pair : ∀ p : ℝ, 0 ≤ p → ∀ l1 l2 : Leg,
      l1.probability = p → l2.probability = p →
      getCombinedProb [l1, l2] = 1.105 * p := by
    intro p hp l1 l2 h1 h2
    rw [getCombinedProb_pair p hp l1 l2 h1 h2]
    ring
  refine ⟨?_, ⟨?_, ?_, ?_⟩, ?_⟩
  · intro p hp hle l1 l2 h1 h2
    have h := pair p (le_of_lt hp) l1 l2 h1 h2
    refine ⟨h, ?_⟩
    rw [h]
    linarith
  · norm_num [capLeg]
  · rw [pair 0.25 (by norm_num) capLeg capLeg rfl rfl]
    norm_num
  · rw [pair 0.25 (by norm_num) capLeg capLeg rfl rfl]
    norm_num
  · intro s h
    have h0 : ¬ s.legs.length = 0 := by
      intro hl
      rw [List.length_eq_zero] at hl
      rw [hl, getCombinedProb_nil] at h
      norm_num at h
    exact placeBet_of_probCap h0 h

/-- Witness for C10: two copies of `cLeg` (probability 0.2) combine to
0.221 > 0.2, and `placeBet` on `capState` (combined probability 0.27625)
rejects with the probability-cap message. -/
theorem C10_witness :
    (getCombinedProb [cLeg, cLeg] = 1.105 * 0.2 ∧
      (0.2:ℝ) < getCombinedProb [cLeg, cLeg]) ∧
    placeBet capState = { capState with error := probCapMsg } := by
  refine ⟨C10_pair_bonus_exceeds_cap.1 0.2 (by norm_num) (by norm_num)
    cLeg cLeg rfl rfl, ?_⟩
  apply C10_pair_bonus_exceeds_cap.2.2 capState
  rw [show capState.legs = [capLeg, capLeg] from rfl]
  exact C10_pair_bonus_exceeds_cap.2.1.2.2

end Prly
